import Mathlib

/-!
Shallow embedding of the `jj op log` rendering pipeline
(`cli/src/commands/operation/log.rs`): the `do_op_log` orchestration and the
`get_node_template` helper, together with the external collaborators they
consume (ancestor stream, template compiler, incremental graph drawer,
configuration lookup).  Machine bytes are `Nat`; fallible operations return
`Except Err`.  The pipeline produces, next to its `Except` result, an explicit
event trace (store fetches, drawer width queries, drawer `add_node` calls,
flat-mode block writes, warnings) so that ordering and counting properties of
the orchestration can be stated.
-/

namespace OpLog

/-- A history entry (`jj_lib::operation::Operation`): an identifier and the
ordered list of parent identifiers.  Metadata is consumed only through the
template functions, which are abstract parameters of the pipeline. -/
structure Operation where
  id : Nat
  parent_ids : List Nat
deriving DecidableEq, Repr

/-- `crate::graphlog::Edge` as used by `do_op_log`: only direct edges are
constructed (one per parent id). -/
inductive Edge where
  | Direct (target : Nat)
deriving DecidableEq, Repr

/-- The edge list built for one entry in `do_op_log`:
`for id in op.parent_ids() { edges.push(Edge::Direct(id.clone())) }`. -/
def edgesOf (op : Operation) : List Edge :=
  op.parent_ids.map Edge.Direct

/-- Error taxonomy of the pipeline (all collapse into `CommandError` in the
source).  `config` is the configuration error raised by a missing required
key; the numeric payloads keep distinct external failures distinguishable. -/
inductive Err where
  | config
  | parse (code : Nat)
  | store (code : Nat)
  | render (code : Nat)
  | drawer (code : Nat)
deriving DecidableEq, Repr

instance {ε α : Type} [DecidableEq ε] [DecidableEq α] :
    DecidableEq (Except ε α) := fun x y =>
  match x, y with
  | .ok a, .ok b =>
      if h : a = b then isTrue (by rw [h])
      else isFalse (by intro hh; cases hh; exact h rfl)
  | .error a, .error b =>
      if h : a = b then isTrue (by rw [h])
      else isFalse (by intro hh; cases hh; exact h rfl)
  | .ok _, .error _ => isFalse (by intro hh; cases hh)
  | .error _, .ok _ => isFalse (by intro hh; cases hh)

/-- Observable events of one `do_op_log` run, in order:
`warn` = a line written to the user-facing warning channel,
`fetch` = one item pulled from the lazy ancestor walk (its id, or the store
error it yielded), `widthQ` = a `graph.width(id, &edges)` query,
`addNode` = a `graph.add_node(id, &edges, &symbol, &content)` call (content
as the code points of the lossily decoded buffer), `flat` = one block written
to the sink in `--no-graph` mode (its raw rendered bytes). -/
inductive Event where
  | warn (msg : String)
  | fetch (r : Except Err Nat)
  | widthQ (id : Nat) (edges : List Edge)
  | addNode (id : Nat) (edges : List Edge) (symbol : String) (content : List Nat)
  | flat (id : Nat) (content : List Nat)
deriving DecidableEq, Repr

/-- Command-line arguments of `jj op log` (`OperationLogArgs`). -/
structure OperationLogArgs where
  limit : Option Nat
  deprecated_limit : Option Nat
  no_graph : Bool
  template : Option String
deriving DecidableEq, Repr

/-- A compiled template binding: `render w op` writes the entry through the
width-`w` content formatter into a byte buffer (fallible), and
`renderString op` is the infallible `format_template` path used for the node
symbol. -/
structure Template where
  render : Nat → Operation → Except Err (List Nat)
  renderString : Operation → String

/-- The incremental graph drawer (`get_graphlog` result), abstract over its
state type: `width` is the pure column-width query, `add_node` the stateful,
fallible drawing call. -/
structure Drawer (σ : Type) where
  width : σ → Nat → List Edge → Nat
  add_node : σ → Nat → List Edge → String → List Nat → Except Err σ

/-- `usize::MAX` on a 64-bit target: the limit used when no flag is given. -/
def usizeMAX : Nat := 2 ^ 64 - 1

/-- `settings.config().get_string(key)?` for a required key: a missing key is
a configuration error (this is the content-template lookup path). -/
def getStringRequired (config : String → Option String) (key : String) :
    Except Err String :=
  match config key with
  | some v => Except.ok v
  | none => Except.error Err.config

/-- Graph drawing style (`crate::graphlog::GraphStyle`).  Modelled from the
spec: only the plain-ASCII vs unicode-art distinction is consumed here,
through `isAscii`. -/
inductive GraphStyle where
  | ascii
  | curved
deriving DecidableEq, Repr

/-- `GraphStyle::is_ascii`. -/
def GraphStyle.isAscii : GraphStyle → Bool
  | .ascii => true
  | .curved => false

/-- `get_node_template(style, settings)`: the optional config key
`templates.op_log_node`, falling back to one of two built-in template names
selected by the graph style. -/
def get_node_template (style : GraphStyle) (config : String → Option String) :
    Except Err String :=
  match config "templates.op_log_node" with
  | some symbol => Except.ok symbol
  | none =>
      Except.ok (if style.isAscii then "builtin_op_log_node_ascii"
                 else "builtin_op_log_node")

/-- The deprecation advisory written when the `-l` flag is present. -/
def deprecatedMsg : String := "The -l shorthand is deprecated, use -n instead."

/-- The trailing-terminator normalization applied to the graph-mode buffer:
`if !buffer.ends_with(b"\n") { buffer.push(b'\n'); }` (byte 10 = `\n`). -/
def normalizeBuf (buf : List Nat) : List Nat :=
  if buf.getLast? = some 10 then buf else buf ++ [10]

/-- A UTF-8 continuation byte. -/
def isCont (b : Nat) : Prop := 0x80 ≤ b ∧ b ≤ 0xBF

instance (b : Nat) : Decidable (isCont b) := by unfold isCont; infer_instance

/-- Lower bound for the second byte of a three-byte sequence. -/
def lo3 (b : Nat) : Nat := if b = 0xE0 then 0xA0 else 0x80

/-- Upper bound for the second byte of a three-byte sequence. -/
def hi3 (b : Nat) : Nat := if b = 0xED then 0x9F else 0xBF

/-- Lower bound for the second byte of a four-byte sequence. -/
def lo4 (b : Nat) : Nat := if b = 0xF0 then 0x90 else 0x80

/-- Upper bound for the second byte of a four-byte sequence. -/
def hi4 (b : Nat) : Nat := if b = 0xF4 then 0x8F else 0xBF

/-- Leader-byte handling of `String::from_utf8_lossy`: an ASCII byte is
emitted as itself, a valid multi-byte leader opens a pending state
`(acc, need, lo, hi)` (accumulated value, continuation bytes still needed,
valid range for the next byte), and anything else is a maximal invalid
subpart of length one, emitted as U+FFFD. -/
def leadByte (b : Nat) : Option (Nat × Nat × Nat × Nat) × List Nat :=
  if b < 0x80 then (none, [b])
  else if 0xC2 ≤ b ∧ b ≤ 0xDF then (some (b - 0xC0, 1, 0x80, 0xBF), [])
  else if 0xE0 ≤ b ∧ b ≤ 0xEF then (some (b - 0xE0, 2, lo3 b, hi3 b), [])
  else if 0xF0 ≤ b ∧ b ≤ 0xF4 then (some (b - 0xF0, 3, lo4 b, hi4 b), [])
  else (none, [0xFFFD])

/-- One byte of `String::from_utf8_lossy`: in a pending state, a byte inside
the expected window extends (or completes) the scalar; a byte outside it
closes the invalid subpart as U+FFFD and is reprocessed as a leader. -/
def lossyStep (st : Option (Nat × Nat × Nat × Nat)) (b : Nat) :
    Option (Nat × Nat × Nat × Nat) × List Nat :=
  match st with
  | none => leadByte b
  | some (acc, need, lo, hi) =>
      if lo ≤ b ∧ b ≤ hi then
        if need = 1 then (none, [acc * 0x40 + (b - 0x80)])
        else (some (acc * 0x40 + (b - 0x80), need - 1, 0x80, 0xBF), [])
      else ((leadByte b).1, 0xFFFD :: (leadByte b).2)

/-- Byte-at-a-time driver of the lossy decoding; a pending state left at the
end of input is an incomplete sequence, emitted as one U+FFFD. -/
def utf8LossyAux : Option (Nat × Nat × Nat × Nat) → List Nat → List Nat
  | st, [] => match st with | none => [] | some _ => [0xFFFD]
  | st, b :: rest => (lossyStep st b).2 ++ utf8LossyAux (lossyStep st b).1 rest

/-- `String::from_utf8_lossy` as a function from bytes to the code points of
the resulting string: valid sequences are decoded, each maximal invalid
subpart becomes U+FFFD. -/
def utf8Lossy (l : List Nat) : List Nat := utf8LossyAux none l

/-- Invariant of the decoder states: the expected window sits inside the
continuation range, `need` is 1..3, and every scalar completable from the
state is a valid (non-surrogate, in-range) Unicode scalar value. -/
def stInv : Option (Nat × Nat × Nat × Nat) → Prop
  | none => True
  | some (acc, need, lo, hi) =>
      0x80 ≤ lo ∧ lo ≤ hi ∧ hi ≤ 0xBF ∧
      ∃ p, (need = 1 ∧ p = 1 ∨ need = 2 ∧ p = 64 ∨ need = 3 ∧ p = 4096) ∧
        acc * 64 * p + (hi - 0x80) * p + (p - 1) < 0x110000 ∧
        (acc * 64 * p + (hi - 0x80) * p + (p - 1) < 0xD800 ∨
         0xDFFF < acc * 64 * p + (lo - 0x80) * p)

/-- The graph-mode loop of `do_op_log` (`if !args.no_graph`): for each fetched
entry, build the direct-parent edges, query the drawer width, render the
content at the reduced width, normalize the trailing newline, render the node
symbol, and hand everything to `add_node`; the first error aborts. -/
def graphLoop {σ : Type} (d : Drawer σ) (template op_node_template : Template)
    (tw : Nat) : σ → List (Except Err Operation) → Except Err Unit × List Event
  | _, [] => (Except.ok (), [])
  | _, Except.error e :: _ => (Except.error e, [Event.fetch (Except.error e)])
  | s, Except.ok op :: rest =>
      let edges := edgesOf op
      let w := d.width s op.id edges
      match template.render (tw - w) op with
      | Except.error e =>
          (Except.error e,
           [Event.fetch (Except.ok op.id), Event.widthQ op.id edges])
      | Except.ok buf =>
          let buffer := normalizeBuf buf
          let node_symbol := op_node_template.renderString op
          let content := utf8Lossy buffer
          match d.add_node s op.id edges node_symbol content with
          | Except.error e =>
              (Except.error e,
               [Event.fetch (Except.ok op.id), Event.widthQ op.id edges,
                Event.addNode op.id edges node_symbol content])
          | Except.ok s2 =>
              let r := graphLoop d template op_node_template tw s2 rest
              (r.1, Event.fetch (Except.ok op.id) :: Event.widthQ op.id edges ::
                    Event.addNode op.id edges node_symbol content :: r.2)

/-- The flat-mode loop of `do_op_log` (`--no-graph`): render each fetched
entry at the full content width straight to the sink; the first error
aborts. -/
def flatLoop (template : Template) (tw : Nat) :
    List (Except Err Operation) → Except Err Unit × List Event
  | [] => (Except.ok (), [])
  | Except.error e :: _ => (Except.error e, [Event.fetch (Except.error e)])
  | Except.ok op :: rest =>
      match template.render tw op with
      | Except.error e => (Except.error e, [Event.fetch (Except.ok op.id)])
      | Except.ok buf =>
          let r := flatLoop template tw rest
          (r.1, Event.fetch (Except.ok op.id) :: Event.flat op.id buf :: r.2)

/-- Resolution of the content-template source text: the `--template` override
when given, otherwise the required `templates.op_log` configuration key. -/
def resolveText (args : OperationLogArgs) (config : String → Option String) :
    Except Err String :=
  match args.template with
  | some value => Except.ok value
  | none => getStringRequired config "templates.op_log"

/-- The effective limit:
`args.limit.or(args.deprecated_limit).unwrap_or(usize::MAX)`. -/
def resolvedLimit (args : OperationLogArgs) : Nat :=
  (args.limit.or args.deprecated_limit).getD usizeMAX

/-- `do_op_log`: resolve the content-template text (CLI override, else the
required `templates.op_log` config key), compile it, compile the node-symbol
template resolved by `get_node_template`, emit the deprecation advisory when
`-l` was used, resolve the limit, truncate the ancestor stream with `take`,
then run the graph or flat loop.  Returns the result and the event trace. -/
def do_op_log {σ : Type} (d : Drawer σ) (s0 : σ)
    (parse : String → Except Err Template)
    (config : String → Option String)
    (style : GraphStyle) (tw : Nat)
    (args : OperationLogArgs) (stream : List (Except Err Operation)) :
    Except Err Unit × List Event :=
  match resolveText args config with
  | Except.error e => (Except.error e, [])
  | Except.ok text =>
    match parse text with
    | Except.error e => (Except.error e, [])
    | Except.ok template =>
      match get_node_template style config with
      | Except.error e => (Except.error e, [])
      | Except.ok ntext =>
        match parse ntext with
        | Except.error e => (Except.error e, [])
        | Except.ok op_node_template =>
          let warnEvs := if args.deprecated_limit.isSome
                         then [Event.warn deprecatedMsg] else []
          let limit := resolvedLimit args
          let iter := stream.take limit
          let r := if args.no_graph = false
                   then graphLoop d template op_node_template tw s0 iter
                   else flatLoop template tw iter
          (r.1, warnEvs ++ r.2)

/-- Number of rendered blocks in a trace: `add_node` calls plus flat-mode
block writes. -/
def blockCount (evs : List Event) : Nat :=
  (evs.filter fun e => match e with
    | Event.addNode _ _ _ _ => true
    | Event.flat _ _ => true
    | _ => false).length

/-- The entry ids of the `add_node` calls of a trace, in order. -/
def addNodeIds (evs : List Event) : List Nat :=
  evs.filterMap fun e => match e with
    | Event.addNode i _ _ _ => some i
    | _ => none

/-- The content arguments of the `add_node` calls of a trace, in order. -/
def addNodeContents (evs : List Event) : List (List Nat) :=
  evs.filterMap fun e => match e with
    | Event.addNode _ _ _ c => some c
    | _ => none

/-- Number of warning-channel writes in a trace. -/
def warnCount (evs : List Event) : Nat :=
  (evs.filter fun e => match e with | Event.warn _ => true | _ => false).length

/-- The store fetches of a trace, in order. -/
def fetchList (evs : List Event) : List (Except Err Nat) :=
  evs.filterMap fun e => match e with | Event.fetch r => some r | _ => none

/-- The drawer calls (width queries and `add_node`) of a trace, in order. -/
def drawerEvents (evs : List Event) : List Event :=
  evs.filter fun e => match e with
    | Event.widthQ _ _ => true
    | Event.addNode _ _ _ _ => true
    | _ => false

/-- The successfully fetched operations of a stream segment. -/
def okOps : List (Except Err Operation) → List Operation :=
  List.filterMap fun r => match r with | Except.ok op => some op | _ => none

/-- The drawer-call trace pairs up with the entry list: for each entry in
order, one width query immediately followed by one `add_node`, both with that
entry's id and its direct-parent edge list, and nothing else. -/
def pairedWith : List Operation → List Event → Bool
  | [], [] => true
  | op :: ops, Event.widthQ i e :: Event.addNode i2 e2 _ _ :: evs =>
      i = op.id && i2 = op.id && e = edgesOf op && e2 = edgesOf op &&
        pairedWith ops evs
  | _, _ => false

/-- The content arguments of the flat-mode block writes of a trace. -/
def flatContents (evs : List Event) : List (List Nat) :=
  evs.filterMap fun e => match e with
    | Event.flat _ c => some c
    | _ => none

/-- A valid Unicode scalar value: below 0x110000 and not a surrogate. -/
def validScalar (c : Nat) : Prop :=
  c < 0x110000 ∧ (c < 0xD800 ∨ 0xDFFF < c)

instance (c : Nat) : Decidable (validScalar c) := by
  unfold validScalar; infer_instance

/-- `l` ends with exactly one line terminator: its last byte is 10 and the
byte before it (if any) is not. -/
def endsWithOneNL (l : List Nat) : Bool :=
  l.getLast? = some 10 && !(l.dropLast.getLast? = some 10)

/-- A drawer over `Nat` states that reports width 1 and always succeeds,
counting the nodes added; used to instantiate the pipeline concretely. -/
def demoDrawer : Drawer Nat :=
  ⟨fun _ _ _ => 1, fun s _ _ _ _ => Except.ok (s + 1)⟩

/-- A total template: renders `[width, id]` and the id as node symbol. -/
def demoTemplate : Template :=
  ⟨fun w op => Except.ok [w, op.id], fun op => toString op.id⟩

/-- A compiler that accepts every source text, yielding `demoTemplate`. -/
def demoParse : String → Except Err Template :=
  fun _ => Except.ok demoTemplate

/-- A template whose rendering ends in two line terminators (`"x\n\n"`). -/
def twoNLTemplate : Template :=
  ⟨fun _ _ => Except.ok [120, 10, 10], fun _ => "o"⟩

/-- A compiler yielding `twoNLTemplate` for every source text. -/
def twoNLParse : String → Except Err Template :=
  fun _ => Except.ok twoNLTemplate

/-- A template producing a single invalid UTF-8 byte (0xFF). -/
def badByteTemplate : Template :=
  ⟨fun _ _ => Except.ok [0xFF], fun _ => "o"⟩

/-- A compiler yielding `badByteTemplate` for every source text. -/
def badByteParse : String → Except Err Template :=
  fun _ => Except.ok badByteTemplate

/-- A compiler that rejects every source text. -/
def failParse : String → Except Err Template :=
  fun _ => Except.error (Err.parse 7)

/-- A configuration holding only the content-template key. -/
def demoConfig : String → Option String :=
  fun k => if k = "templates.op_log" then some "tpl" else none

/-- An empty configuration. -/
def emptyConfig : String → Option String := fun _ => none

/-- A linear three-entry ancestor stream: 5 → 4 → 3, newest first. -/
def demoStream : List (Except Err Operation) :=
  [Except.ok ⟨5, [4]⟩, Except.ok ⟨4, [3]⟩, Except.ok ⟨3, []⟩]

/-- A one-entry ancestor stream. -/
def oneStream : List (Except Err Operation) := [Except.ok ⟨5, []⟩]

theorem blockCount_append (a b : List Event) :
    blockCount (a ++ b) = blockCount a + blockCount b := by
  simp [blockCount, List.filter_append]

theorem warnCount_append (a b : List Event) :
    warnCount (a ++ b) = warnCount a + warnCount b := by
  simp [warnCount, List.filter_append]

theorem addNodeIds_append (a b : List Event) :
    addNodeIds (a ++ b) = addNodeIds a ++ addNodeIds b := by
  simp [addNodeIds, List.filterMap_append]

theorem addNodeContents_append (a b : List Event) :
    addNodeContents (a ++ b) = addNodeContents a ++ addNodeContents b := by
  simp [addNodeContents, List.filterMap_append]

theorem fetchList_append (a b : List Event) :
    fetchList (a ++ b) = fetchList a ++ fetchList b := by
  simp [fetchList, List.filterMap_append]

theorem flatContents_append (a b : List Event) :
    flatContents (a ++ b) = flatContents a ++ flatContents b := by
  simp [flatContents, List.filterMap_append]

theorem drawerEvents_append (a b : List Event) :
    drawerEvents (a ++ b) = drawerEvents a ++ drawerEvents b := by
  simp [drawerEvents, List.filter_append]

theorem leadByte_inv (b : Nat) : stInv (leadByte b).1 := by
  unfold leadByte
  split_ifs with h1 h2 h3 h4
  · simp [stInv]
  · exact ⟨by norm_num, by norm_num, by norm_num, 1,
      Or.inl ⟨rfl, rfl⟩, by omega, by omega⟩
  · unfold lo3 hi3
    refine ⟨?_, ?_, ?_, 64, Or.inr (Or.inl ⟨rfl, rfl⟩), ?_, ?_⟩ <;>
      split_ifs <;> omega
  · unfold lo4 hi4
    refine ⟨?_, ?_, ?_, 4096, Or.inr (Or.inr ⟨rfl, rfl⟩), ?_, ?_⟩ <;>
      split_ifs <;> omega
  · simp [stInv]

theorem lossyStep_inv (st : Option (Nat × Nat × Nat × Nat)) (b : Nat)
    (h : stInv st) : stInv (lossyStep st b).1 := by
  cases st with
  | none => exact leadByte_inv b
  | some q =>
      obtain ⟨acc, need, lo, hi⟩ := q
      obtain ⟨hlo, hlh, hhi, p, hp, hbound, hsur⟩ := h
      simp only [lossyStep]
      split_ifs with hw hn
      · simp [stInv]
      · simp only [stInv]
        rcases hp with ⟨h1, rfl⟩ | ⟨h2, rfl⟩ | ⟨h3, rfl⟩
        · omega
        · exact ⟨by norm_num, by norm_num, by norm_num, 1,
            Or.inl ⟨by omega, rfl⟩, by omega, by omega⟩
        · exact ⟨by norm_num, by norm_num, by norm_num, 64,
            Or.inr (Or.inl ⟨by omega, rfl⟩), by omega, by omega⟩
      · exact leadByte_inv b

theorem leadByte_out_valid (b : Nat) : ∀ c ∈ (leadByte b).2, validScalar c := by
  unfold leadByte
  split_ifs with h1 h2 h3 h4 <;> intro c hc <;>
    simp_all [validScalar] <;> omega

set_option maxRecDepth 4096 in
theorem lossyStep_out_valid (st : Option (Nat × Nat × Nat × Nat)) (b : Nat)
    (h : stInv st) : ∀ c ∈ (lossyStep st b).2, validScalar c := by
  cases st with
  | none => exact leadByte_out_valid b
  | some q =>
      obtain ⟨acc, need, lo, hi⟩ := q
      obtain ⟨hlo, hlh, hhi, p, hp, hbound, hsur⟩ := h
      simp only [lossyStep]
      split_ifs with hw hn
      · intro c hc
        simp only [List.mem_singleton] at hc
        subst hc
        rcases hp with ⟨h1, rfl⟩ | ⟨h2, rfl⟩ | ⟨h3, rfl⟩ <;>
          exact ⟨by omega, by omega⟩
      · intro c hc; simp at hc
      · intro c hc
        rcases List.mem_cons.mp hc with rfl | hc2
        · exact ⟨by norm_num, Or.inr (by norm_num)⟩
        · exact leadByte_out_valid b c hc2

theorem utf8LossyAux_valid :
    ∀ (l : List Nat) (st : Option (Nat × Nat × Nat × Nat)),
      stInv st → ∀ c ∈ utf8LossyAux st l, validScalar c := by
  intro l
  induction l with
  | nil =>
      intro st _ c hc
      cases st with
      | none => simp [utf8LossyAux] at hc
      | some q =>
          simp [utf8LossyAux] at hc
          subst hc
          exact ⟨by norm_num, Or.inr (by norm_num)⟩
  | cons b rest ih =>
      intro st hst c hc
      simp only [utf8LossyAux] at hc
      rcases List.mem_append.mp hc with h | h
      · exact lossyStep_out_valid st b hst c h
      · exact ih (lossyStep st b).1 (lossyStep_inv st b hst) c h

theorem utf8Lossy_valid (l : List Nat) : ∀ c ∈ utf8Lossy l, validScalar c :=
  utf8LossyAux_valid l none (by trivial)

theorem utf8LossyAux_last :
    ∀ (l : List Nat) (st : Option (Nat × Nat × Nat × Nat)),
      stInv st → (utf8LossyAux st (l ++ [10])).getLast? = some 10 := by
  intro l
  induction l with
  | nil =>
      intro st hst
      cases st with
      | none => rfl
      | some q =>
          obtain ⟨acc, need, lo, hi⟩ := q
          obtain ⟨hlo, _, _, _⟩ := hst
          simp only [List.nil_append, utf8LossyAux, lossyStep]
          rw [if_neg (by omega)]
          rfl
  | cons b rest ih =>
      intro st hst
      simp only [List.cons_append, utf8LossyAux]
      rw [List.getLast?_append]
      simp only [List.append_eq]
      rw [ih (lossyStep st b).1 (lossyStep_inv st b hst)]
      rfl

theorem utf8Lossy_last (l : List Nat) (h : l.getLast? = some 10) :
    (utf8Lossy l).getLast? = some 10 := by
  obtain ⟨l1, rfl⟩ := List.getLast?_eq_some_iff.mp h
  exact utf8LossyAux_last l1 none (by trivial)

theorem normalizeBuf_last (buf : List Nat) :
    (normalizeBuf buf).getLast? = some 10 := by
  unfold normalizeBuf
  split
  · assumption
  · exact List.getLast?_concat _

theorem normalizeBuf_of_nl (buf : List Nat) (h : buf.getLast? = some 10) :
    normalizeBuf buf = buf := by
  simp [normalizeBuf, h]

theorem normalizeBuf_of_not_nl (buf : List Nat) (h : buf.getLast? ≠ some 10) :
    normalizeBuf buf = buf ++ [10] := by
  simp [normalizeBuf, h]

theorem do_op_log_eq {σ : Type} (d : Drawer σ) (s0 : σ)
    (parse : String → Except Err Template) (config : String → Option String)
    (style : GraphStyle) (tw : Nat) (args : OperationLogArgs)
    (stream : List (Except Err Operation)) (text : String) (t : Template)
    (ntext : String) (nt : Template)
    (h1 : resolveText args config = Except.ok text)
    (h2 : parse text = Except.ok t)
    (h3 : get_node_template style config = Except.ok ntext)
    (h4 : parse ntext = Except.ok nt) :
    do_op_log d s0 parse config style tw args stream =
      ((if args.no_graph = false
        then graphLoop d t nt tw s0 (stream.take (resolvedLimit args))
        else flatLoop t tw (stream.take (resolvedLimit args))).1,
       (if args.deprecated_limit.isSome then [Event.warn deprecatedMsg]
        else []) ++
       (if args.no_graph = false
        then graphLoop d t nt tw s0 (stream.take (resolvedLimit args))
        else flatLoop t tw (stream.take (resolvedLimit args))).2) := by
  simp only [do_op_log, h1, h2, h3, h4]

theorem graphLoop_ok {σ : Type} (d : Drawer σ) (t nt : Template) (tw : Nat)
    (hr : ∀ w op, ∃ bs, t.render w op = Except.ok bs)
    (hd : ∀ s i e sy c, ∃ s2, d.add_node s i e sy c = Except.ok s2) :
    ∀ (items : List (Except Err Operation)),
      (∀ r ∈ items, ∃ op, r = Except.ok op) → ∀ (s : σ),
      (graphLoop d t nt tw s items).1 = Except.ok () ∧
      fetchList (graphLoop d t nt tw s items).2 =
        (okOps items).map (fun op => Except.ok op.id) ∧
      addNodeIds (graphLoop d t nt tw s items).2 =
        (okOps items).map Operation.id ∧
      pairedWith (okOps items)
        (drawerEvents (graphLoop d t nt tw s items).2) = true ∧
      blockCount (graphLoop d t nt tw s items).2 = items.length ∧
      warnCount (graphLoop d t nt tw s items).2 = 0 ∧
      (∀ c ∈ addNodeContents (graphLoop d t nt tw s items).2,
        c.getLast? = some 10 ∧ ∀ x ∈ c, validScalar x) := by
  intro items
  induction items with
  | nil =>
      intro _ s
      simp [graphLoop, fetchList, addNodeIds, pairedWith, blockCount,
            warnCount, addNodeContents, drawerEvents, okOps]
  | cons item tl ih =>
      intro hs s
      obtain ⟨op, rfl⟩ := hs item (List.mem_cons_self _ _)
      obtain ⟨bs, hbs⟩ := hr (tw - d.width s op.id (edgesOf op)) op
      obtain ⟨s2, hs2⟩ :=
        hd s op.id (edgesOf op) (nt.renderString op)
          (utf8Lossy (normalizeBuf bs))
      have htl : ∀ r ∈ tl, ∃ op2, r = Except.ok op2 :=
        fun r hrm => hs r (List.mem_cons_of_mem _ hrm)
      obtain ⟨ih1, ih2, ih3, ih4, ih5, ih6, ih7⟩ := ih htl s2
      simp only [graphLoop, hbs, hs2]
      refine ⟨ih1, ?_, ?_, ?_, ?_, ?_, ?_⟩
      · simp only [fetchList, okOps] at ih2 ⊢
        simp [List.filterMap_cons, ih2]
      · simp only [addNodeIds, okOps] at ih3 ⊢
        simp [List.filterMap_cons, ih3]
      · simp only [pairedWith, drawerEvents, okOps] at ih4 ⊢
        simp [List.filterMap_cons, List.filter_cons, pairedWith, ih4]
      · simp only [blockCount, okOps] at ih5 ⊢
        simp [List.filter_cons, List.filterMap_cons, ih5]
      · simp only [warnCount] at ih6 ⊢
        simp [List.filter_cons, ih6]
      · intro c hc
        simp only [addNodeContents, List.filterMap_cons] at hc
        rcases List.mem_cons.mp hc with rfl | hc2
        · exact ⟨utf8Lossy_last _ (normalizeBuf_last bs),
                 utf8Lossy_valid _⟩
        · exact ih7 c hc2

theorem flatLoop_ok (t : Template) (tw : Nat)
    (hr : ∀ w op, ∃ bs, t.render w op = Except.ok bs) :
    ∀ (items : List (Except Err Operation)),
      (∀ r ∈ items, ∃ op, r = Except.ok op) →
      (flatLoop t tw items).1 = Except.ok () ∧
      fetchList (flatLoop t tw items).2 =
        (okOps items).map (fun op => Except.ok op.id) ∧
      blockCount (flatLoop t tw items).2 = items.length ∧
      warnCount (flatLoop t tw items).2 = 0 := by
  intro items
  induction items with
  | nil => intro _; simp [flatLoop, fetchList, blockCount, warnCount, okOps]
  | cons item tl ih =>
      intro hs
      obtain ⟨op, rfl⟩ := hs item (List.mem_cons_self _ _)
      obtain ⟨bs, hbs⟩ := hr tw op
      have htl : ∀ r ∈ tl, ∃ op2, r = Except.ok op2 :=
        fun r hrm => hs r (List.mem_cons_of_mem _ hrm)
      obtain ⟨ih1, ih2, ih3, ih4⟩ := ih htl
      simp only [flatLoop, hbs]
      refine ⟨ih1, ?_, ?_, ?_⟩
      · simp only [fetchList, okOps] at ih2 ⊢
        simp [List.filterMap_cons, ih2]
      · simp only [blockCount, okOps] at ih3 ⊢
        simp [List.filter_cons, List.filterMap_cons, ih3]
      · simp only [warnCount] at ih4 ⊢
        simp [List.filter_cons, ih4]

theorem graphLoop_fetch_err {σ : Type} (d : Drawer σ) (t nt : Template)
    (tw : Nat)
    (hr : ∀ w op, ∃ bs, t.render w op = Except.ok bs)
    (hd : ∀ s i e sy c, ∃ s2, d.add_node s i e sy c = Except.ok s2) :
    ∀ (pre : List Operation) (e : Err) (post : List (Except Err Operation))
      (s : σ),
      (graphLoop d t nt tw s
        (pre.map Except.ok ++ Except.error e :: post)).1 = Except.error e ∧
      addNodeIds (graphLoop d t nt tw s
        (pre.map Except.ok ++ Except.error e :: post)).2 =
        pre.map Operation.id ∧
      blockCount (graphLoop d t nt tw s
        (pre.map Except.ok ++ Except.error e :: post)).2 = pre.length := by
  intro pre
  induction pre with
  | nil =>
      intro e post s
      simp [graphLoop, addNodeIds, blockCount]
  | cons op tl ih =>
      intro e post s
      obtain ⟨bs, hbs⟩ := hr (tw - d.width s op.id (edgesOf op)) op
      obtain ⟨s2, hs2⟩ :=
        hd s op.id (edgesOf op) (nt.renderString op)
          (utf8Lossy (normalizeBuf bs))
      obtain ⟨ih1, ih2, ih3⟩ := ih e post s2
      simp only [List.map_cons, List.cons_append, graphLoop, hbs, hs2]
      refine ⟨ih1, ?_, ?_⟩
      · simp only [addNodeIds] at ih2 ⊢
        simp [List.filterMap_cons, ih2]
      · simp only [blockCount] at ih3 ⊢
        simp [List.filter_cons, ih3]

theorem graphLoop_render_err {σ : Type} (d : Drawer σ) (t nt : Template)
    (tw : Nat) (e : Err)
    (hre : ∀ w op, t.render w op = Except.error e) :
    ∀ (op : Operation) (rest : List (Except Err Operation)) (s : σ),
      (graphLoop d t nt tw s (Except.ok op :: rest)).1 = Except.error e ∧
      blockCount (graphLoop d t nt tw s (Except.ok op :: rest)).2 = 0 := by
  intro op rest s
  constructor
  · simp [graphLoop, hre]
  · simp [graphLoop, hre, blockCount]

theorem graphLoop_drawer_err {σ : Type} (d : Drawer σ) (t nt : Template)
    (tw : Nat) (e : Err)
    (hr : ∀ w op, ∃ bs, t.render w op = Except.ok bs)
    (hde : ∀ s i ed sy c, d.add_node s i ed sy c = Except.error e) :
    ∀ (op : Operation) (rest : List (Except Err Operation)) (s : σ),
      (graphLoop d t nt tw s (Except.ok op :: rest)).1 = Except.error e ∧
      addNodeIds (graphLoop d t nt tw s (Except.ok op :: rest)).2 =
        [op.id] := by
  intro op rest s
  obtain ⟨bs, hbs⟩ := hr (tw - d.width s op.id (edgesOf op)) op
  constructor
  · simp [graphLoop, hbs, hde]
  · simp [graphLoop, hbs, hde, addNodeIds]

theorem flatLoop_fetch_err (t : Template) (tw : Nat)
    (hr : ∀ w op, ∃ bs, t.render w op = Except.ok bs) :
    ∀ (pre : List Operation) (e : Err) (post : List (Except Err Operation)),
      (flatLoop t tw (pre.map Except.ok ++ Except.error e :: post)).1 =
        Except.error e ∧
      blockCount (flatLoop t tw
        (pre.map Except.ok ++ Except.error e :: post)).2 = pre.length := by
  intro pre
  induction pre with
  | nil =>
      intro e post
      simp [flatLoop, blockCount]
  | cons op tl ih =>
      intro e post
      obtain ⟨bs, hbs⟩ := hr tw op
      obtain ⟨ih1, ih2⟩ := ih e post
      simp only [List.map_cons, List.cons_append, flatLoop, hbs]
      refine ⟨ih1, ?_⟩
      simp only [blockCount] at ih2 ⊢
      simp [List.filter_cons, ih2]

theorem flatLoop_render_err (t : Template) (tw : Nat) (e : Err)
    (hre : ∀ w op, t.render w op = Except.error e) :
    ∀ (op : Operation) (rest : List (Except Err Operation)),
      (flatLoop t tw (Except.ok op :: rest)).1 = Except.error e ∧
      blockCount (flatLoop t tw (Except.ok op :: rest)).2 = 0 := by
  intro op rest
  constructor
  · simp [flatLoop, hre]
  · simp [flatLoop, hre, blockCount]

theorem blockCount_warnEvs (p : Bool) :
    blockCount (if p then [Event.warn deprecatedMsg] else []) = 0 := by
  cases p <;> simp [blockCount]

theorem warnCount_warnEvs (p : Bool) :
    warnCount (if p then [Event.warn deprecatedMsg] else []) =
      (if p then 1 else 0) := by
  cases p <;> simp [warnCount]

/-- C1: with successfully compiled templates, an all-ok ancestor stream, a
total renderer and a total drawer, `do_op_log` renders exactly
`min (resolvedLimit args) stream.length` blocks (in graph mode as well as in
flat mode); in particular the number of blocks never exceeds the resolved
limit, and when neither limit flag is given every ancestor is rendered. -/
theorem c1_block_count {σ : Type} (d : Drawer σ) (s0 : σ)
    (parse : String → Except Err Template) (config : String → Option String)
    (style : GraphStyle) (tw : Nat) (args : OperationLogArgs)
    (stream : List (Except Err Operation)) (text : String) (t : Template)
    (ntext : String) (nt : Template)
    (h1 : resolveText args config = Except.ok text)
    (h2 : parse text = Except.ok t)
    (h3 : get_node_template style config = Except.ok ntext)
    (h4 : parse ntext = Except.ok nt)
    (hr : ∀ w op, ∃ bs, t.render w op = Except.ok bs)
    (hd : ∀ s i e sy c, ∃ s2, d.add_node s i e sy c = Except.ok s2)
    (hs : ∀ r ∈ stream, ∃ op, r = Except.ok op) :
    blockCount (do_op_log d s0 parse config style tw args stream).2 =
      min (resolvedLimit args) stream.length ∧
    blockCount (do_op_log d s0 parse config style tw args stream).2 ≤
      resolvedLimit args ∧
    (args.limit = none → args.deprecated_limit = none →
      stream.length ≤ usizeMAX →
      blockCount (do_op_log d s0 parse config style tw args stream).2 =
        stream.length) := by
  have hs2 : ∀ r ∈ stream.take (resolvedLimit args), ∃ op, r = Except.ok op :=
    fun r hrm => hs r (List.take_subset _ _ hrm)
  rw [do_op_log_eq d s0 parse config style tw args stream text t ntext nt
        h1 h2 h3 h4]
  have hmain :
      blockCount
        ((if args.deprecated_limit.isSome then [Event.warn deprecatedMsg]
          else []) ++
         (if args.no_graph = false
          then graphLoop d t nt tw s0 (stream.take (resolvedLimit args))
          else flatLoop t tw (stream.take (resolvedLimit args))).2) =
        min (resolvedLimit args) stream.length := by
    rw [blockCount_append, blockCount_warnEvs, Nat.zero_add]
    cases hng : args.no_graph with
    | false =>
        simp only [hng, eq_self_iff_true, if_true]
        rw [(graphLoop_ok d t nt tw hr hd (stream.take (resolvedLimit args))
              hs2 s0).2.2.2.2.1]
        exact List.length_take _ _
    | true =>
        simp only [hng, Bool.true_eq_false, if_false]
        rw [(flatLoop_ok t tw hr (stream.take (resolvedLimit args))
              hs2).2.2.1]
        exact List.length_take _ _
  refine ⟨hmain, ?_, ?_⟩
  · rw [hmain]; exact Nat.min_le_left _ _
  · intro hn1 hn2 hlen
    rw [hmain]
    have : resolvedLimit args = usizeMAX := by
      simp [resolvedLimit, hn1, hn2, Option.or]
    rw [this]
    exact Nat.min_eq_right hlen

/-- Witness for C1 at concrete inputs: three ok ancestors, limit 2. -/
theorem c1_block_count_witness :
    blockCount (do_op_log demoDrawer 0 demoParse demoConfig GraphStyle.ascii
      80 ⟨some 2, none, false, none⟩ demoStream).2 =
      min (resolvedLimit ⟨some 2, none, false, none⟩) demoStream.length :=
  (c1_block_count demoDrawer 0 demoParse demoConfig GraphStyle.ascii 80
    ⟨some 2, none, false, none⟩ demoStream "tpl" demoTemplate
    "builtin_op_log_node_ascii" demoTemplate (by decide) rfl (by decide) rfl
    (fun w op => ⟨[w, op.id], rfl⟩) (fun s i e sy c => ⟨s + 1, rfl⟩)
    (by
      intro r hrm
      simp only [demoStream, List.mem_cons, List.not_mem_nil, or_false]
        at hrm
      rcases hrm with h | h | h <;> exact ⟨_, h⟩)).1

theorem addNodeIds_warnEvs (p : Bool) :
    addNodeIds (if p then [Event.warn deprecatedMsg] else []) = [] := by
  cases p <;> simp [addNodeIds]

theorem drawerEvents_warnEvs (p : Bool) :
    drawerEvents (if p then [Event.warn deprecatedMsg] else []) = [] := by
  cases p <;> simp [drawerEvents]

theorem fetchList_warnEvs (p : Bool) :
    fetchList (if p then [Event.warn deprecatedMsg] else []) = [] := by
  cases p <;> simp [fetchList]

theorem addNodeContents_warnEvs (p : Bool) :
    addNodeContents (if p then [Event.warn deprecatedMsg] else []) = [] := by
  cases p <;> simp [addNodeContents]

/-- C2: in graph mode, with compiled templates and an error-free run, the
`add_node` calls of the trace correspond one-to-one and in order with the
entries of the limit-truncated ancestor stream — the n-th `add_node` is for
the n-th entry, never reordered, skipped, or batched. -/
theorem c2_add_node_order {σ : Type} (d : Drawer σ) (s0 : σ)
    (parse : String → Except Err Template) (config : String → Option String)
    (style : GraphStyle) (tw : Nat) (args : OperationLogArgs)
    (stream : List (Except Err Operation)) (text : String) (t : Template)
    (ntext : String) (nt : Template)
    (h1 : resolveText args config = Except.ok text)
    (h2 : parse text = Except.ok t)
    (h3 : get_node_template style config = Except.ok ntext)
    (h4 : parse ntext = Except.ok nt)
    (hr : ∀ w op, ∃ bs, t.render w op = Except.ok bs)
    (hd : ∀ s i e sy c, ∃ s2, d.add_node s i e sy c = Except.ok s2)
    (hs : ∀ r ∈ stream, ∃ op, r = Except.ok op)
    (hng : args.no_graph = false) :
    addNodeIds (do_op_log d s0 parse config style tw args stream).2 =
      (okOps (stream.take (resolvedLimit args))).map Operation.id := by
  have hs2 : ∀ r ∈ stream.take (resolvedLimit args), ∃ op, r = Except.ok op :=
    fun r hrm => hs r (List.take_subset _ _ hrm)
  rw [do_op_log_eq d s0 parse config style tw args stream text t ntext nt
        h1 h2 h3 h4]
  simp only [hng, eq_self_iff_true, if_true]
  rw [addNodeIds_append, addNodeIds_warnEvs, List.nil_append]
  exact (graphLoop_ok d t nt tw hr hd (stream.take (resolvedLimit args))
    hs2 s0).2.2.1

/-- Witness for C2 at concrete inputs: three ok ancestors, graph mode,
limit 2. -/
theorem c2_add_node_order_witness :
    addNodeIds (do_op_log demoDrawer 0 demoParse demoConfig GraphStyle.ascii
      80 ⟨some 2, none, false, none⟩ demoStream).2 =
      (okOps (demoStream.take
        (resolvedLimit ⟨some 2, none, false, none⟩))).map Operation.id :=
  c2_add_node_order demoDrawer 0 demoParse demoConfig GraphStyle.ascii 80
    ⟨some 2, none, false, none⟩ demoStream "tpl" demoTemplate
    "builtin_op_log_node_ascii" demoTemplate (by decide) rfl (by decide) rfl
    (fun w op => ⟨[w, op.id], rfl⟩) (fun s i e sy c => ⟨s + 1, rfl⟩)
    (by
      intro r hrm
      simp only [demoStream, List.mem_cons, List.not_mem_nil, or_false]
        at hrm
      rcases hrm with h | h | h <;> exact ⟨_, h⟩)
    rfl

/-- C4: in graph mode, with compiled templates and an error-free run, the
drawer-call trace consists, for each entry in order, of exactly one width
query immediately followed by the `add_node` call for that same entry id,
both carrying the same edge list (one Direct edge per parent id, in parent
order), with no interleaving between the pairs of different entries. -/
theorem c4_width_pairing {σ : Type} (d : Drawer σ) (s0 : σ)
    (parse : String → Except Err Template) (config : String → Option String)
    (style : GraphStyle) (tw : Nat) (args : OperationLogArgs)
    (stream : List (Except Err Operation)) (text : String) (t : Template)
    (ntext : String) (nt : Template)
    (h1 : resolveText args config = Except.ok text)
    (h2 : parse text = Except.ok t)
    (h3 : get_node_template style config = Except.ok ntext)
    (h4 : parse ntext = Except.ok nt)
    (hr : ∀ w op, ∃ bs, t.render w op = Except.ok bs)
    (hd : ∀ s i e sy c, ∃ s2, d.add_node s i e sy c = Except.ok s2)
    (hs : ∀ r ∈ stream, ∃ op, r = Except.ok op)
    (hng : args.no_graph = false) :
    pairedWith (okOps (stream.take (resolvedLimit args)))
      (drawerEvents (do_op_log d s0 parse config style tw args stream).2) =
      true := by
  have hs2 : ∀ r ∈ stream.take (resolvedLimit args), ∃ op, r = Except.ok op :=
    fun r hrm => hs r (List.take_subset _ _ hrm)
  rw [do_op_log_eq d s0 parse config style tw args stream text t ntext nt
        h1 h2 h3 h4]
  simp only [hng, eq_self_iff_true, if_true]
  rw [drawerEvents_append, drawerEvents_warnEvs, List.nil_append]
  exact (graphLoop_ok d t nt tw hr hd (stream.take (resolvedLimit args))
    hs2 s0).2.2.2.1

/-- Witness for C4 at concrete inputs: three ok ancestors, graph mode,
limit 2. -/
theorem c4_width_pairing_witness :
    pairedWith (okOps (demoStream.take
        (resolvedLimit ⟨some 2, none, false, none⟩)))
      (drawerEvents (do_op_log demoDrawer 0 demoParse demoConfig
        GraphStyle.ascii 80 ⟨some 2, none, false, none⟩ demoStream).2) =
      true :=
  c4_width_pairing demoDrawer 0 demoParse demoConfig GraphStyle.ascii 80
    ⟨some 2, none, false, none⟩ demoStream "tpl" demoTemplate
    "builtin_op_log_node_ascii" demoTemplate (by decide) rfl (by decide) rfl
    (fun w op => ⟨[w, op.id], rfl⟩) (fun s i e sy c => ⟨s + 1, rfl⟩)
    (by
      intro r hrm
      simp only [demoStream, List.mem_cons, List.not_mem_nil, or_false]
        at hrm
      rcases hrm with h | h | h <;> exact ⟨_, h⟩)
    rfl

/-- C3 counterexample: the claim "the rendered block always ends with exactly
one line terminator, in any mode" fails on the code.  In graph mode a
template emitting `"x\n\n"` (bytes 120 10 10) reaches the drawer with both
trailing terminators intact, and in flat mode a template emitting no
terminator at all is written with none: the code only ever appends a missing
final newline in graph mode, it never collapses repeated ones and never
touches flat-mode output. -/
theorem c3_counterexample :
    addNodeContents (do_op_log demoDrawer 0 twoNLParse demoConfig
      GraphStyle.ascii 80 ⟨none, none, false, none⟩ oneStream).2 =
      [[120, 10, 10]] ∧
    endsWithOneNL [120, 10, 10] = false ∧
    flatContents (do_op_log demoDrawer 0 demoParse demoConfig
      GraphStyle.ascii 80 ⟨none, none, true, none⟩ oneStream).2 =
      [[80, 5]] ∧
    endsWithOneNL [80, 5] = false := by
  refine ⟨by decide, by decide, by decide, by decide⟩

/-- C3 (amended): in graph mode the block handed to the drawer always ends
with at least one line terminator — exactly one is appended when the template
output ends with none, while output already ending with one or more
terminators passes through unchanged; flat mode writes the rendered bytes
unmodified. -/
theorem c3_amended_trailing_nl {σ : Type} (d : Drawer σ) (s0 : σ)
    (parse : String → Except Err Template) (config : String → Option String)
    (style : GraphStyle) (tw : Nat) (args : OperationLogArgs)
    (stream : List (Except Err Operation)) (text : String) (t : Template)
    (ntext : String) (nt : Template)
    (h1 : resolveText args config = Except.ok text)
    (h2 : parse text = Except.ok t)
    (h3 : get_node_template style config = Except.ok ntext)
    (h4 : parse ntext = Except.ok nt)
    (hr : ∀ w op, ∃ bs, t.render w op = Except.ok bs)
    (hd : ∀ s i e sy c, ∃ s2, d.add_node s i e sy c = Except.ok s2)
    (hs : ∀ r ∈ stream, ∃ op, r = Except.ok op)
    (hng : args.no_graph = false) :
    (∀ c ∈ addNodeContents
        (do_op_log d s0 parse config style tw args stream).2,
      c.getLast? = some 10) ∧
    (∀ buf, buf.getLast? ≠ some 10 → normalizeBuf buf = buf ++ [10]) ∧
    (∀ buf, buf.getLast? = some 10 → normalizeBuf buf = buf) := by
  have hs2 : ∀ r ∈ stream.take (resolvedLimit args), ∃ op, r = Except.ok op :=
    fun r hrm => hs r (List.take_subset _ _ hrm)
  refine ⟨?_, normalizeBuf_of_not_nl, normalizeBuf_of_nl⟩
  rw [do_op_log_eq d s0 parse config style tw args stream text t ntext nt
        h1 h2 h3 h4]
  simp only [hng, eq_self_iff_true, if_true]
  rw [addNodeContents_append, addNodeContents_warnEvs, List.nil_append]
  intro c hc
  exact ((graphLoop_ok d t nt tw hr hd (stream.take (resolvedLimit args))
    hs2 s0).2.2.2.2.2.2 c hc).1

/-- Witness for the amended C3 at concrete inputs. -/
theorem c3_amended_trailing_nl_witness :
    normalizeBuf [120] = [120] ++ [10] :=
  (c3_amended_trailing_nl demoDrawer 0 demoParse demoConfig GraphStyle.ascii
    80 ⟨none, none, false, none⟩ oneStream "tpl" demoTemplate
    "builtin_op_log_node_ascii" demoTemplate (by decide) rfl (by decide) rfl
    (fun w op => ⟨[w, op.id], rfl⟩) (fun s i e sy c => ⟨s + 1, rfl⟩)
    (by
      intro r hrm
      simp only [oneStream, List.mem_cons, List.not_mem_nil, or_false] at hrm
      exact ⟨_, hrm⟩)
    rfl).2.1 [120] (by decide)

/-- C5: both templates are compiled before any entry is read from the
stream: any template compilation failure — and the configuration error when
no content template is configured and no CLI override is given — aborts the
run with an empty trace (no store fetch, no warning, no drawer call, no
output), independently of the stream contents. -/
theorem c5_compile_before_iteration {σ : Type} (d : Drawer σ) (s0 : σ)
    (parse : String → Except Err Template) (config : String → Option String)
    (style : GraphStyle) (tw : Nat) (args : OperationLogArgs) :
    (∀ e text, resolveText args config = Except.ok text →
      parse text = Except.error e →
      ∀ stream, do_op_log d s0 parse config style tw args stream =
        (Except.error e, [])) ∧
    (∀ e text t ntext, resolveText args config = Except.ok text →
      parse text = Except.ok t →
      get_node_template style config = Except.ok ntext →
      parse ntext = Except.error e →
      ∀ stream, do_op_log d s0 parse config style tw args stream =
        (Except.error e, [])) ∧
    (args.template = none → config "templates.op_log" = none →
      ∀ stream, do_op_log d s0 parse config style tw args stream =
        (Except.error Err.config, [])) := by
  refine ⟨?_, ?_, ?_⟩
  · intro e text ht hp stream
    simp [do_op_log, ht, hp]
  · intro e text t ntext ht hp hn hp2 stream
    simp [do_op_log, ht, hp, hn, hp2]
  · intro hargs hconf stream
    simp [do_op_log, resolveText, hargs, getStringRequired, hconf]

/-- Witness for C5: missing `templates.op_log` key and no override abort
with the configuration error and an empty trace. -/
theorem c5_compile_before_iteration_witness :
    do_op_log demoDrawer 0 demoParse emptyConfig GraphStyle.ascii 80
      ⟨none, none, false, none⟩ demoStream = (Except.error Err.config, []) :=
  (c5_compile_before_iteration demoDrawer 0 demoParse emptyConfig
    GraphStyle.ascii 80 ⟨none, none, false, none⟩).2.2 rfl rfl demoStream

theorem run_facts {σ : Type} (d : Drawer σ) (s0 : σ)
    (parse : String → Except Err Template) (config : String → Option String)
    (style : GraphStyle) (tw : Nat) (args : OperationLogArgs)
    (stream : List (Except Err Operation)) (text : String) (t : Template)
    (ntext : String) (nt : Template)
    (h1 : resolveText args config = Except.ok text)
    (h2 : parse text = Except.ok t)
    (h3 : get_node_template style config = Except.ok ntext)
    (h4 : parse ntext = Except.ok nt)
    (hr : ∀ w op, ∃ bs, t.render w op = Except.ok bs)
    (hd : ∀ s i e sy c, ∃ s2, d.add_node s i e sy c = Except.ok s2)
    (hs : ∀ r ∈ stream, ∃ op, r = Except.ok op) :
    (do_op_log d s0 parse config style tw args stream).1 = Except.ok () ∧
    blockCount (do_op_log d s0 parse config style tw args stream).2 =
      min (resolvedLimit args) stream.length ∧
    warnCount (do_op_log d s0 parse config style tw args stream).2 =
      (if args.deprecated_limit.isSome then 1 else 0) ∧
    (args.deprecated_limit.isSome = true →
      ∃ evs, (do_op_log d s0 parse config style tw args stream).2 =
        Event.warn deprecatedMsg :: evs ∧ warnCount evs = 0) := by
  have hs2 : ∀ r ∈ stream.take (resolvedLimit args), ∃ op, r = Except.ok op :=
    fun r hrm => hs r (List.take_subset _ _ hrm)
  rw [do_op_log_eq d s0 parse config style tw args stream text t ntext nt
        h1 h2 h3 h4]
  have hloop :
      (if args.no_graph = false
       then graphLoop d t nt tw s0 (stream.take (resolvedLimit args))
       else flatLoop t tw (stream.take (resolvedLimit args))).1 =
        Except.ok () ∧
      blockCount
        (if args.no_graph = false
         then graphLoop d t nt tw s0 (stream.take (resolvedLimit args))
         else flatLoop t tw (stream.take (resolvedLimit args))).2 =
        min (resolvedLimit args) stream.length ∧
      warnCount
        (if args.no_graph = false
         then graphLoop d t nt tw s0 (stream.take (resolvedLimit args))
         else flatLoop t tw (stream.take (resolvedLimit args))).2 = 0 := by
    cases hng : args.no_graph with
    | false =>
        simp only [hng, eq_self_iff_true, if_true]
        obtain ⟨g1, _, _, _, g5, g6, _⟩ :=
          graphLoop_ok d t nt tw hr hd (stream.take (resolvedLimit args))
            hs2 s0
        exact ⟨g1, by rw [g5]; exact List.length_take _ _, g6⟩
    | true =>
        simp only [hng, Bool.true_eq_false, if_false]
        obtain ⟨f1, _, f3, f4⟩ :=
          flatLoop_ok t tw hr (stream.take (resolvedLimit args)) hs2
        exact ⟨f1, by rw [f3]; exact List.length_take _ _, f4⟩
  obtain ⟨hl1, hl2, hl3⟩ := hloop
  refine ⟨hl1, ?_, ?_, ?_⟩
  · rw [blockCount_append, blockCount_warnEvs, Nat.zero_add]
    exact hl2
  · rw [warnCount_append, warnCount_warnEvs, hl3, Nat.add_zero]
  · intro hdep
    refine ⟨(if args.no_graph = false
             then graphLoop d t nt tw s0 (stream.take (resolvedLimit args))
             else flatLoop t tw (stream.take (resolvedLimit args))).2,
            ?_, hl3⟩
    simp [hdep]

/-- C6: the effective limit is the new `--limit` flag when present, else the
deprecated `-l` flag, else unbounded; when the deprecated flag alone is
present, exactly one non-fatal deprecation advisory is written, and it is the
first trace event — before any rendered output — while the run still
completes normally; with no deprecated flag no advisory is written. -/
theorem c6_limit_and_advisory {σ : Type} (d : Drawer σ) (s0 : σ)
    (parse : String → Except Err Template) (config : String → Option String)
    (style : GraphStyle) (tw : Nat) (args : OperationLogArgs)
    (stream : List (Except Err Operation)) (text : String) (t : Template)
    (ntext : String) (nt : Template)
    (h1 : resolveText args config = Except.ok text)
    (h2 : parse text = Except.ok t)
    (h3 : get_node_template style config = Except.ok ntext)
    (h4 : parse ntext = Except.ok nt)
    (hr : ∀ w op, ∃ bs, t.render w op = Except.ok bs)
    (hd : ∀ s i e sy c, ∃ s2, d.add_node s i e sy c = Except.ok s2)
    (hs : ∀ r ∈ stream, ∃ op, r = Except.ok op) :
    (∀ n, args.limit = some n →
      blockCount (do_op_log d s0 parse config style tw args stream).2 =
        min n stream.length) ∧
    (args.limit = none → ∀ m, args.deprecated_limit = some m →
      (do_op_log d s0 parse config style tw args stream).1 = Except.ok () ∧
      blockCount (do_op_log d s0 parse config style tw args stream).2 =
        min m stream.length ∧
      ∃ evs, (do_op_log d s0 parse config style tw args stream).2 =
        Event.warn deprecatedMsg :: evs ∧ warnCount evs = 0) ∧
    (args.limit = none → args.deprecated_limit = none →
      warnCount (do_op_log d s0 parse config style tw args stream).2 = 0 ∧
      (stream.length ≤ usizeMAX →
        blockCount (do_op_log d s0 parse config style tw args stream).2 =
          stream.length)) := by
  obtain ⟨hf1, hf2, hf3, hf4⟩ :=
    run_facts d s0 parse config style tw args stream text t ntext nt
      h1 h2 h3 h4 hr hd hs
  refine ⟨?_, ?_, ?_⟩
  · intro n hn
    rw [hf2]
    have : resolvedLimit args = n := by simp [resolvedLimit, hn, Option.or]
    rw [this]
  · intro hn m hm
    have hres : resolvedLimit args = m := by
      simp [resolvedLimit, hn, hm, Option.or]
    exact ⟨hf1, by rw [hf2, hres], hf4 (by simp [hm])⟩
  · intro hn hm
    have hres : resolvedLimit args = usizeMAX := by
      simp [resolvedLimit, hn, hm, Option.or]
    refine ⟨by rw [hf3]; simp [hm], ?_⟩
    intro hlen
    rw [hf2, hres]
    exact Nat.min_eq_right hlen

/-- Witness for C6: the deprecated flag alone truncates to its value and the
run completes normally. -/
theorem c6_limit_and_advisory_witness :
    (do_op_log demoDrawer 0 demoParse demoConfig GraphStyle.ascii 80
      ⟨none, some 2, false, none⟩ demoStream).1 = Except.ok () :=
  ((c6_limit_and_advisory demoDrawer 0 demoParse demoConfig GraphStyle.ascii
    80 ⟨none, some 2, false, none⟩ demoStream "tpl" demoTemplate
    "builtin_op_log_node_ascii" demoTemplate (by decide) rfl (by decide) rfl
    (fun w op => ⟨[w, op.id], rfl⟩) (fun s i e sy c => ⟨s + 1, rfl⟩)
    (by
      intro r hrm
      simp only [demoStream, List.mem_cons, List.not_mem_nil, or_false]
        at hrm
      rcases hrm with h | h | h <;> exact ⟨_, h⟩)).2.1 rfl 2 rfl).1

/-- C7: in either mode, the first error encountered during iteration aborts
the run without rendering further entries, and already-emitted events
(flushed output) remain.  With a store fetch failure at position k (before
the limit) the run — graph or flat — propagates exactly that error and
renders exactly the k entries before it (in graph mode those are exactly the
`add_node` calls made); with a template whose rendering always fails, the
first entry already aborts the run — graph or flat — with that error and no
block rendered; in graph mode, a drawer that fails aborts with its error
after the one attempted `add_node`.  There is no per-entry
skip-and-continue. -/
theorem c7_first_error_aborts {σ : Type} (d : Drawer σ) (s0 : σ)
    (parse : String → Except Err Template) (config : String → Option String)
    (style : GraphStyle) (tw : Nat) (args : OperationLogArgs)
    (text : String) (t : Template) (ntext : String) (nt : Template)
    (h1 : resolveText args config = Except.ok text)
    (h2 : parse text = Except.ok t)
    (h3 : get_node_template style config = Except.ok ntext)
    (h4 : parse ntext = Except.ok nt) :
    (∀ (pre : List Operation) (e : Err)
       (post : List (Except Err Operation)),
      (∀ w op, ∃ bs, t.render w op = Except.ok bs) →
      (∀ s i ed sy c, ∃ s2, d.add_node s i ed sy c = Except.ok s2) →
      pre.length < resolvedLimit args →
      (do_op_log d s0 parse config style tw args
        (pre.map Except.ok ++ Except.error e :: post)).1 = Except.error e ∧
      blockCount (do_op_log d s0 parse config style tw args
        (pre.map Except.ok ++ Except.error e :: post)).2 = pre.length ∧
      (args.no_graph = false →
        addNodeIds (do_op_log d s0 parse config style tw args
          (pre.map Except.ok ++ Except.error e :: post)).2 =
          pre.map Operation.id)) ∧
    (∀ (e : Err), (∀ w op, t.render w op = Except.error e) →
      ∀ (op : Operation) (rest : List (Except Err Operation)),
      0 < resolvedLimit args →
      (do_op_log d s0 parse config style tw args
        (Except.ok op :: rest)).1 = Except.error e ∧
      blockCount (do_op_log d s0 parse config style tw args
        (Except.ok op :: rest)).2 = 0) ∧
    (args.no_graph = false →
      ∀ (e : Err), (∀ w op, ∃ bs, t.render w op = Except.ok bs) →
      (∀ s i ed sy c, d.add_node s i ed sy c = Except.error e) →
      ∀ (op : Operation) (rest : List (Except Err Operation)),
      0 < resolvedLimit args →
      (do_op_log d s0 parse config style tw args
        (Except.ok op :: rest)).1 = Except.error e ∧
      addNodeIds (do_op_log d s0 parse config style tw args
        (Except.ok op :: rest)).2 = [op.id]) := by
  refine ⟨?_, ?_, ?_⟩
  · intro pre e post hr hd hlen
    rw [do_op_log_eq d s0 parse config style tw args
          (pre.map Except.ok ++ Except.error e :: post) text t ntext nt
          h1 h2 h3 h4]
    have htake :
        (pre.map (Except.ok : Operation → Except Err Operation) ++
          Except.error e :: post).take (resolvedLimit args) =
        pre.map Except.ok ++ Except.error e ::
          post.take (resolvedLimit args - pre.length - 1) := by
      rw [List.take_append_eq_append_take,
          List.take_of_length_le
            (by rw [List.length_map]; omega)]
      congr 1
      have hsub : resolvedLimit args -
          (pre.map (Except.ok : Operation → Except Err Operation)).length =
          (resolvedLimit args - pre.length - 1) + 1 := by
        rw [List.length_map]; omega
      rw [hsub, List.take_succ_cons]
    cases hng : args.no_graph with
    | false =>
        simp only [hng, eq_self_iff_true, if_true, htake]
        obtain ⟨g1, g2, g3⟩ :=
          graphLoop_fetch_err d t nt tw hr hd pre e
            (post.take (resolvedLimit args - pre.length - 1)) s0
        refine ⟨g1, ?_, ?_⟩
        · rw [blockCount_append, blockCount_warnEvs, Nat.zero_add]
          exact g3
        · intro _
          rw [addNodeIds_append, addNodeIds_warnEvs, List.nil_append]
          exact g2
    | true =>
        simp only [hng, Bool.true_eq_false, if_false, htake]
        obtain ⟨f1, f2⟩ :=
          flatLoop_fetch_err t tw hr pre e
            (post.take (resolvedLimit args - pre.length - 1))
        refine ⟨f1, ?_, ?_⟩
        · rw [blockCount_append, blockCount_warnEvs, Nat.zero_add]
          exact f2
        · intro hgf
          simp [hng] at hgf
  · intro e hre op rest hlim
    rw [do_op_log_eq d s0 parse config style tw args
          (Except.ok op :: rest) text t ntext nt h1 h2 h3 h4]
    have htake : (Except.ok op :: rest : List (Except Err Operation)).take
        (resolvedLimit args) =
        Except.ok op :: rest.take (resolvedLimit args - 1) := by
      have hsub : resolvedLimit args = (resolvedLimit args - 1) + 1 := by
        omega
      rw [hsub, List.take_succ_cons]
      simp
    cases hng : args.no_graph with
    | false =>
        simp only [hng, eq_self_iff_true, if_true, htake]
        obtain ⟨g1, g2⟩ :=
          graphLoop_render_err d t nt tw e hre op
            (rest.take (resolvedLimit args - 1)) s0
        refine ⟨g1, ?_⟩
        rw [blockCount_append, blockCount_warnEvs, Nat.zero_add]
        exact g2
    | true =>
        simp only [hng, Bool.true_eq_false, if_false, htake]
        obtain ⟨f1, f2⟩ :=
          flatLoop_render_err t tw e hre op
            (rest.take (resolvedLimit args - 1))
        refine ⟨f1, ?_⟩
        rw [blockCount_append, blockCount_warnEvs, Nat.zero_add]
        exact f2
  · intro hng e hr hde op rest hlim
    rw [do_op_log_eq d s0 parse config style tw args
          (Except.ok op :: rest) text t ntext nt h1 h2 h3 h4]
    have htake : (Except.ok op :: rest : List (Except Err Operation)).take
        (resolvedLimit args) =
        Except.ok op :: rest.take (resolvedLimit args - 1) := by
      have hsub : resolvedLimit args = (resolvedLimit args - 1) + 1 := by
        omega
      rw [hsub, List.take_succ_cons]
      simp
    simp only [hng, eq_self_iff_true, if_true, htake]
    obtain ⟨g1, g2⟩ :=
      graphLoop_drawer_err d t nt tw e hr hde op
        (rest.take (resolvedLimit args - 1)) s0
    refine ⟨g1, ?_⟩
    rw [addNodeIds_append, addNodeIds_warnEvs, List.nil_append]
    exact g2

/-- Witness for C7: a store failure after one ok entry propagates, here in
flat mode. -/
theorem c7_first_error_aborts_witness :
    (do_op_log demoDrawer 0 demoParse demoConfig GraphStyle.ascii 80
      ⟨none, none, true, none⟩
      (([⟨5, [4]⟩] : List Operation).map Except.ok ++
        Except.error (Err.store 3) :: [Except.ok ⟨3, []⟩])).1 =
      Except.error (Err.store 3) :=
  ((c7_first_error_aborts demoDrawer 0 demoParse demoConfig GraphStyle.ascii
    80 ⟨none, none, true, none⟩ "tpl" demoTemplate
    "builtin_op_log_node_ascii" demoTemplate (by decide) rfl (by decide)
    rfl).1 [⟨5, [4]⟩] (Err.store 3) [Except.ok ⟨3, []⟩]
    (fun w op => ⟨[w, op.id], rfl⟩) (fun s i ed sy c => ⟨s + 1, rfl⟩)
    (by decide)).1

/-- C8: the run is a function of the `take`-truncated stream alone — two
streams agreeing on their first `resolvedLimit args` items produce identical
results and traces, so entries beyond the limit are never consumed; in the
concrete scenario (three linear entries, limit 2, flat mode) exactly the
first two entries are fetched and rendered, in order, and the third is never
fetched. -/
theorem c8_lazy_truncation {σ : Type} (d : Drawer σ) (s0 : σ)
    (parse : String → Except Err Template) (config : String → Option String)
    (style : GraphStyle) (tw : Nat) (args : OperationLogArgs) :
    (∀ s1 s2 : List (Except Err Operation),
      s1.take (resolvedLimit args) = s2.take (resolvedLimit args) →
      do_op_log d s0 parse config style tw args s1 =
        do_op_log d s0 parse config style tw args s2) ∧
    (fetchList (do_op_log demoDrawer 0 demoParse demoConfig GraphStyle.ascii
        80 ⟨some 2, none, true, none⟩ demoStream).2 =
      [Except.ok 5, Except.ok 4] ∧
     flatContents (do_op_log demoDrawer 0 demoParse demoConfig
        GraphStyle.ascii 80 ⟨some 2, none, true, none⟩ demoStream).2 =
      [[80, 5], [80, 4]]) := by
  refine ⟨?_, by decide, by decide⟩
  intro s1 s2 h
  simp only [do_op_log, h]

/-- Witness for C8: appending an item beyond the limit does not change the
run. -/
theorem c8_lazy_truncation_witness :
    do_op_log demoDrawer 0 demoParse demoConfig GraphStyle.ascii 80
      ⟨some 2, none, false, none⟩ demoStream =
    do_op_log demoDrawer 0 demoParse demoConfig GraphStyle.ascii 80
      ⟨some 2, none, false, none⟩
      (demoStream ++ [Except.error (Err.store 9)]) :=
  (c8_lazy_truncation demoDrawer 0 demoParse demoConfig GraphStyle.ascii 80
    ⟨some 2, none, false, none⟩).1 demoStream
    (demoStream ++ [Except.error (Err.store 9)]) (by decide)

/-- C9: the node-symbol template source is a pure function of configuration
and graph style: a configured `templates.op_log_node` value is used as-is
(a missing key is not an error), and in its absence the built-in name is
`builtin_op_log_node_ascii` for the plain-ASCII style and
`builtin_op_log_node` otherwise. -/
theorem c9_node_template_source (style : GraphStyle)
    (config : String → Option String) :
    (∀ v, config "templates.op_log_node" = some v →
      get_node_template style config = Except.ok v) ∧
    (config "templates.op_log_node" = none →
      get_node_template style config =
        Except.ok (if style.isAscii then "builtin_op_log_node_ascii"
                   else "builtin_op_log_node")) := by
  constructor
  · intro v hv; simp [get_node_template, hv]
  · intro hv; simp [get_node_template, hv]

/-- Witness for C9: with the key absent and the plain-ASCII style the ASCII
built-in is chosen. -/
theorem c9_node_template_source_witness :
    get_node_template GraphStyle.ascii demoConfig =
      Except.ok (if GraphStyle.ascii.isAscii then "builtin_op_log_node_ascii"
                 else "builtin_op_log_node") :=
  (c9_node_template_source GraphStyle.ascii demoConfig).2 (by decide)

/-- C10: the graph-mode content buffer is passed through lossy UTF-8
decoding before reaching the drawer: in any error-free graph-mode run every
code point handed to `add_node` is a valid Unicode scalar value, and a
template emitting the invalid byte 0xFF neither errors nor aborts the
pipeline — the drawer receives U+FFFD (and the appended newline) instead. -/
theorem c10_lossy_utf8 {σ : Type} (d : Drawer σ) (s0 : σ)
    (parse : String → Except Err Template) (config : String → Option String)
    (style : GraphStyle) (tw : Nat) (args : OperationLogArgs)
    (stream : List (Except Err Operation)) (text : String) (t : Template)
    (ntext : String) (nt : Template)
    (h1 : resolveText args config = Except.ok text)
    (h2 : parse text = Except.ok t)
    (h3 : get_node_template style config = Except.ok ntext)
    (h4 : parse ntext = Except.ok nt)
    (hr : ∀ w op, ∃ bs, t.render w op = Except.ok bs)
    (hd : ∀ s i e sy c, ∃ s2, d.add_node s i e sy c = Except.ok s2)
    (hs : ∀ r ∈ stream, ∃ op, r = Except.ok op)
    (hng : args.no_graph = false) :
    (∀ c ∈ addNodeContents
        (do_op_log d s0 parse config style tw args stream).2,
      ∀ x ∈ c, validScalar x) ∧
    ((do_op_log demoDrawer 0 badByteParse demoConfig GraphStyle.ascii 80
        ⟨none, none, false, none⟩ oneStream).1 = Except.ok () ∧
     addNodeContents (do_op_log demoDrawer 0 badByteParse demoConfig
        GraphStyle.ascii 80 ⟨none, none, false, none⟩ oneStream).2 =
      [[0xFFFD, 10]]) := by
  have hs2 : ∀ r ∈ stream.take (resolvedLimit args), ∃ op, r = Except.ok op :=
    fun r hrm => hs r (List.take_subset _ _ hrm)
  refine ⟨?_, by decide, by decide⟩
  rw [do_op_log_eq d s0 parse config style tw args stream text t ntext nt
        h1 h2 h3 h4]
  simp only [hng, eq_self_iff_true, if_true]
  rw [addNodeContents_append, addNodeContents_warnEvs, List.nil_append]
  intro c hc
  exact ((graphLoop_ok d t nt tw hr hd (stream.take (resolvedLimit args))
    hs2 s0).2.2.2.2.2.2 c hc).2

/-- Witness for C10: the replacement character produced from the invalid
byte is itself a valid scalar. -/
theorem c10_lossy_utf8_witness : validScalar 0xFFFD :=
  (c10_lossy_utf8 demoDrawer 0 badByteParse demoConfig GraphStyle.ascii 80
    ⟨none, none, false, none⟩ oneStream "tpl" badByteTemplate
    "builtin_op_log_node_ascii" badByteTemplate (by decide) rfl (by decide)
    rfl (fun w op => ⟨[0xFF], rfl⟩) (fun s i e sy c => ⟨s + 1, rfl⟩)
    (by
      intro r hrm
      simp only [oneStream, List.mem_cons, List.not_mem_nil, or_false] at hrm
      exact ⟨_, hrm⟩)
    rfl).1 [0xFFFD, 10] (by decide) 0xFFFD (by decide)

end OpLog
